import Mathlib

/-!
Verification of the transformer backbone in
`src/zonos_local_lib/backbone/_torch.py`.

The PyTorch tensor code is shallowly embedded over `ℚ`:
tensors become total functions from natural-number indices together with
explicit shape fields, in-place slice assignment becomes functional update
of a cache record threaded through `Except`, and the two transcendental
ingredients of the source (the complex exponentials `e^(i*f)` produced by
`torch.polar`, and the real functions `exp` / `rsqrt` inside softmax,
SiLU and LayerNorm) are abstracted as explicit parameters, so that every
definition stays computable and the algebraic structure of the source is
kept exactly.
-/

/-! ## Rotary embedding: complex pairs over ℚ

`precompute_freqs_cis` (lines 9-15 of `_torch.py`) stores, for position
`t` and frequency index `i`, the pair `(cos (t*f i), sin (t*f i))`, i.e.
the real and imaginary part of `(e^(I*f i))^t`.  We embed the unit
complex number `e^(I*f i)` as a rational pair `ws i` (the transcendental
value itself is not representable; every theorem quantifies over all unit
pairs, which includes the actual values), and the table entry is the
`t`-th complex power of that pair, exactly the source's `polar` data. -/

/-- Complex multiplication on pairs `(re, im)` of rationals. -/
def cmul (a b : ℚ × ℚ) : ℚ × ℚ :=
  (a.1 * b.1 - a.2 * b.2, a.1 * b.2 + a.2 * b.1)

/-- Complex conjugation on pairs. -/
def cconj (a : ℚ × ℚ) : ℚ × ℚ := (a.1, -a.2)

/-- Squared complex norm of a pair. -/
def cnormSq (a : ℚ × ℚ) : ℚ := a.1 * a.1 + a.2 * a.2

/-- `n`-th complex power of a pair. -/
def cpow (a : ℚ × ℚ) : ℕ → ℚ × ℚ
  | 0 => (1, 0)
  | n + 1 => cmul (cpow a n) a

/-- Embedding of `precompute_freqs_cis` (lines 9-15): entry `(t, i)` of the
table is `(cos (t * f i), sin (t * f i))`, i.e. the `t`-th power of the unit
complex number `ws i` standing for `e^(I * f i)` with
`f i = base ^ (-(2 * i) / n_elem)`. -/
def freqsCisEntry (ws : ℕ → ℚ × ℚ) (t i : ℕ) : ℚ × ℚ :=
  cpow (ws i) t

/-- Embedding of the rotation applied to one feature pair by
`apply_rotary_emb` (lines 21-27): given the table entry `f = (c, s)` and the
feature pair `x = (x0, x1)`, the source computes
`(x0*c - x1*s, x1*c + x0*s)`. -/
def applyRotaryPair (f x : ℚ × ℚ) : ℚ × ℚ :=
  (x.1 * f.1 - x.2 * f.2, x.2 * f.1 + x.1 * f.2)

/-- Rotate a head vector, viewed as `halfDim` feature pairs, at absolute
position `p`: each pair `i` is rotated by table entry `(p, i)`
(`apply_rotary_emb` applied after slicing the table at position `p`). -/
def ropeRotate (ws : ℕ → ℚ × ℚ) (p : ℕ) (x : ℕ → ℚ × ℚ) (i : ℕ) : ℚ × ℚ :=
  applyRotaryPair (freqsCisEntry ws p i) (x i)

/-- Euclidean inner product of two feature pairs. -/
def pairDot (a b : ℚ × ℚ) : ℚ := a.1 * b.1 + a.2 * b.2

/-- Dot product of a query rotated at position `p` with a key rotated at
position `pk`, over `halfDim` feature pairs. -/
def ropeDot (ws : ℕ → ℚ × ℚ) (halfDim p pk : ℕ) (q k : ℕ → ℚ × ℚ) : ℚ :=
  ∑ i ∈ Finset.range halfDim, pairDot (ropeRotate ws p q i) (ropeRotate ws pk k i)

/-! ## KV cache model

`_update_kv_cache` (lines 33-49) mutates a 5-dimensional buffer
`(max_batch, max_seq_len, 2, num_heads_kv, head_dim)` in place and returns
a view `kv_cache[batch_start:batch_end, :sequence_end, ...]`.  We model the
buffer by a record with shape fields and a total data function, the
in-place write by a functional update, the Python `assert` statements by
`Except.error`, and the returned view by a record holding the offset data
function.  `torch` raises on a shape mismatch between the assigned slice
and `k`/`v`, which we model by an explicit shape guard. -/

/-- A `(batch, seq, heads, dim)` tensor such as the `k`/`v` chunks. -/
structure Tensor4 where
  batch : ℕ
  seq : ℕ
  heads : ℕ
  dim : ℕ
  data : ℕ → ℕ → ℕ → ℕ → ℚ

/-- A `(batch, seq, 2, heads, dim)` tensor: a KV cache buffer view; index
order of `data` is batch, sequence, slot (0 = key, 1 = value), head, dim. -/
structure TensorKV where
  batch : ℕ
  seq : ℕ
  heads : ℕ
  dim : ℕ
  data : ℕ → ℕ → ℕ → ℕ → ℕ → ℚ

/-- One layer's preallocated cache buffer
(`TransformerBlock.allocate_inference_cache`, line 119):
shape `(batch_size, max_seqlen, 2, num_heads_kv, head_dim)`. -/
structure KVCache where
  maxBatch : ℕ
  maxSeq : ℕ
  numHeadsKV : ℕ
  headDim : ℕ
  data : ℕ → ℕ → ℕ → ℕ → ℕ → ℚ

/-- The decode state (`InferenceParams` in the source): running offsets and
the mapping from layer index to that layer's cache buffer. -/
structure InferenceParams where
  seqlen_offset : ℕ
  batch_size_offset : ℕ
  key_value_memory_dict : ℕ → Option KVCache

/-- The in-place slice assignment of lines 47-48: keys written into slot 0
and values into slot 1 of the rectangle
`[b0, b0 + k.batch) × [s0, s0 + k.seq)`; everything else untouched. -/
def cacheWrite (cache : KVCache) (b0 s0 : ℕ) (k v : Tensor4) : KVCache :=
  { cache with
    data := fun b s slot h d =>
      if b0 ≤ b ∧ b < b0 + k.batch ∧ s0 ≤ s ∧ s < s0 + k.seq ∧ slot = 0 then
        k.data (b - b0) (s - s0) h d
      else if b0 ≤ b ∧ b < b0 + k.batch ∧ s0 ≤ s ∧ s < s0 + k.seq ∧ slot = 1 then
        v.data (b - b0) (s - s0) h d
      else cache.data b s slot h d }

/-- The returned view of line 49:
`kv_cache[batch_start:batch_end, :sequence_end, ...]`. -/
def cacheView (cache : KVCache) (b0 batchChunk seqEnd : ℕ) : TensorKV :=
  { batch := batchChunk
    seq := seqEnd
    heads := cache.numHeadsKV
    dim := cache.headDim
    data := fun b s slot h d => cache.data (b0 + b) s slot h d }

/-- Functional update of the layer-to-cache mapping. -/
def dictSet (ip : InferenceParams) (layerIdx : ℕ) (cache : KVCache) : InferenceParams :=
  { ip with
    key_value_memory_dict := fun l =>
      if l = layerIdx then some cache else ip.key_value_memory_dict l }

/-- Shape compatibility of the written chunks with the cache buffer: `torch`
raises at the slice assignment if these do not hold. -/
def chunkShapesOk (cache : KVCache) (k v : Tensor4) : Prop :=
  k.heads = cache.numHeadsKV ∧ k.dim = cache.headDim ∧ v.batch = k.batch ∧
    v.seq = k.seq ∧ v.heads = k.heads ∧ v.dim = k.dim

instance (cache : KVCache) (k v : Tensor4) : Decidable (chunkShapesOk cache k v) := by
  unfold chunkShapesOk
  infer_instance

/-- Embedding of `_update_kv_cache` (lines 33-49).  The failed `assert`
statements and `torch` shape errors become `Except.error`; on success the
function returns the view of the valid region together with the updated
decode state. -/
def updateKVCache (k v : Tensor4) (ip : InferenceParams) (layerIdx : ℕ) :
    Except String (TensorKV × InferenceParams) :=
  match ip.key_value_memory_dict layerIdx with
  | none => .error "AssertionError: layer_idx not in key_value_memory_dict"
  | some cache =>
    if ip.batch_size_offset + k.batch ≤ cache.maxBatch then
      if ip.seqlen_offset + k.seq ≤ cache.maxSeq then
        if chunkShapesOk cache k v then
          let written := cacheWrite cache ip.batch_size_offset ip.seqlen_offset k v
          .ok (cacheView written ip.batch_size_offset k.batch (ip.seqlen_offset + k.seq),
            dictSet ip layerIdx written)
        else .error "RuntimeError: shape mismatch in cache slice assignment"
      else .error "AssertionError: sequence_end exceeds kv_cache.shape[1]"
    else .error "AssertionError: batch_end exceeds kv_cache.shape[0]"

/-- `true` exactly on successful results. -/
def isOkE {α : Type} : Except String α → Bool
  | .ok _ => true
  | .error _ => false

/-- The returned view of a successful cache update, if any. -/
def okRetOf : Except String (TensorKV × InferenceParams) → Option TensorKV
  | .ok (r, _) => some r
  | .error _ => none

/-! ## Attention, feed-forward and backbone model

`F.scaled_dot_product_attention(q, k, v, is_causal=seqlen > 1)` (line 172)
computes per head `softmax(q·kᵀ * scale) · v`, where `scale` is
`1/sqrt(head_dim)` (irrational, abstracted as an explicit parameter) and
with `is_causal=True` applies the top-left-aligned lower-triangular mask:
query row `i` may attend to key column `j` iff `j ≤ i`.  `exp` inside
softmax is abstracted as a parameter `E`; masked entries contribute
nothing to numerator or denominator, exactly as `exp(-inf) = 0` does. -/

/-- Hidden-state tensor `(batch, seq_len, d_model)` as a total function. -/
abbrev HiddenT := ℕ → ℕ → ℕ → ℚ

/-- The attention mask of `scaled_dot_product_attention`: with
`is_causal=True`, query `i` sees key `j` iff `j ≤ i`; otherwise all keys. -/
def maskAllowed (causal : Bool) (i j : ℕ) : Bool :=
  !causal || decide (j ≤ i)

/-- Softmax weight of key `j` for query `i` over `S` key positions:
masked entries are excluded from numerator and denominator. -/
def sdpaWeight (E : ℚ → ℚ) (causal : Bool) (S : ℕ) (score : ℕ → ℚ) (i j : ℕ) : ℚ :=
  if maskAllowed causal i j then
    E (score j) /
      ∑ m ∈ (Finset.range S).filter (fun m => maskAllowed causal i m = true), E (score m)
  else 0

/-- One head of scaled dot-product attention over `S` cached positions:
output at query position `i`, feature `d`. -/
def sdpaHead (E : ℚ → ℚ) (scale : ℚ) (causal : Bool) (hd S : ℕ)
    (q k v : ℕ → ℕ → ℚ) : ℕ → ℕ → ℚ :=
  fun i d =>
    ∑ j ∈ Finset.range S,
      sdpaWeight E causal S (fun m => scale * ∑ e ∈ Finset.range hd, q i e * k m e) i j *
        v j d

/-- `torch.repeat_interleave(kv, repeats, dim=2)` along the head axis:
output head `h` is input head `h / repeats` (each input head repeated
`repeats` times contiguously). -/
def gqaExpand {α : Type} (repeats : ℕ) (kv : ℕ → α) (h : ℕ) : α :=
  kv (h / repeats)

/-- Per-head attention outputs of `Attention.forward` after the cache
fetch (lines 156-172): `q` is indexed (head, query pos, dim), `kR`/`vR`
(kv head, cache pos, dim); key/value heads are expanded when
`num_heads_kv < num_heads`, and the causal flag is `seqlen > 1`. -/
def attnHeadsOut (E : ℚ → ℚ) (scale : ℚ) (nh nkv hd L S : ℕ)
    (q kR vR : ℕ → ℕ → ℕ → ℚ) (h : ℕ) : ℕ → ℕ → ℚ :=
  let kEff := if nkv < nh then gqaExpand (nh / nkv) kR else kR
  let vEff := if nkv < nh then gqaExpand (nh / nkv) vR else vR
  sdpaHead E scale (decide (1 < L)) hd S (q h) (kEff h) (vEff h)

/-- `nn.Linear(inDim, outDim, bias=False)`: `y o = ∑ i, W o i * x i`. -/
def linearNoBias (W : ℕ → ℕ → ℚ) (inDim : ℕ) (x : ℕ → ℚ) : ℕ → ℚ :=
  fun o => ∑ i ∈ Finset.range inDim, W o i * x i

/-- `nn.LayerNorm(d, eps)` with affine parameters `w`, `b`; `rsqrtF`
abstracts the real function `x ↦ 1/sqrt x`. -/
def layerNorm (rsqrtF : ℚ → ℚ) (d : ℕ) (eps : ℚ) (w b : ℕ → ℚ) (x : ℕ → ℚ) :
    ℕ → ℚ :=
  let mean := (∑ i ∈ Finset.range d, x i) / (d : ℚ)
  let variance := (∑ i ∈ Finset.range d, (x i - mean) ^ 2) / (d : ℚ)
  fun i => (x i - mean) * rsqrtF (variance + eps) * w i + b i

/-- `F.silu(x) = x * sigmoid(x)` with `sigmoid(x) = 1/(1 + exp(-x))`;
`E` abstracts `exp`. -/
def siluE (E : ℚ → ℚ) (x : ℚ) : ℚ :=
  x * (1 / (1 + E (-x)))

/-- `FeedForward.forward` (lines 189-191): `fc1` output chunked into
`(y, gate)`, output `fc2 (y * silu gate)`. -/
def feedForward (E : ℚ → ℚ) (dModel dInt : ℕ) (fc1 fc2 : ℕ → ℕ → ℚ)
    (x : ℕ → ℚ) : ℕ → ℚ :=
  let h := linearNoBias fc1 dModel x
  linearNoBias fc2 dInt (fun i => h i * siluE E (h (dInt + i)))

/-- `apply_rotary_emb` (lines 18-30) on a (batch, pos, head, dim) tensor:
feature pair `(2j, 2j+1)` at call position `t` is rotated by table entry
`freqs t j`. -/
def applyRotaryEmb4 (freqs : ℕ → ℕ → ℚ × ℚ) (x : ℕ → ℕ → ℕ → ℕ → ℚ) :
    ℕ → ℕ → ℕ → ℕ → ℚ :=
  fun b t h d =>
    let j := d / 2
    let z := applyRotaryPair (freqs t j) (x b t h (2 * j), x b t h (2 * j + 1))
    if d % 2 = 0 then z.1 else z.2

/-- Model configuration consumed from `BackboneConfig`; `ssm_cfg = true`
stands for a truthy (non-transformer, state-space) `ssm_cfg` entry. -/
structure BackboneConfig where
  d_model : ℕ
  n_layer : ℕ
  num_heads : ℕ
  num_heads_kv : ℕ
  attn_mlp_d_intermediate : ℕ
  norm_epsilon : ℚ
  ssm_cfg : Bool

/-- Weights of one `TransformerBlock`. -/
structure BlockWeights where
  normW : ℕ → ℚ
  normB : ℕ → ℚ
  inProj : ℕ → ℕ → ℚ
  outProj : ℕ → ℕ → ℚ
  norm2W : ℕ → ℚ
  norm2B : ℕ → ℚ
  fc1 : ℕ → ℕ → ℚ
  fc2 : ℕ → ℕ → ℚ

/-- The precomputed rotary table (`freqs_cis`): number of positions,
device it lives on, and the entry function. -/
structure FreqsTable where
  len : ℕ
  device : ℕ
  data : ℕ → ℕ → ℚ × ℚ

/-- The backbone module state: configuration, per-layer weights, final
norm weights, the device of the module's parameters, the per-frequency
unit coefficients `ws` (standing for `e^(I*f_i)`, see `freqsCisEntry`),
and the lazily materialized rotary table (`none` before
`allocate_inference_cache` has run). -/
structure BackboneModel where
  config : BackboneConfig
  blocks : ℕ → BlockWeights
  normFW : ℕ → ℚ
  normFB : ℕ → ℚ
  moduleDevice : ℕ
  ws : ℕ → ℚ × ℚ
  freqs : Option FreqsTable

/-- `TorchZonosBackbone.__init__` (lines 56-62): asserts the configuration
is a transformer one before building any layer; a truthy `ssm_cfg` raises
`AssertionError` and no model object is produced. -/
def mkBackbone (config : BackboneConfig) (blocks : ℕ → BlockWeights)
    (normFW normFB : ℕ → ℚ) (device : ℕ) (ws : ℕ → ℚ × ℚ) :
    Except String BackboneModel :=
  if config.ssm_cfg then
    .error "AssertionError: This backbone implementation only supports the Transformer model."
  else
    .ok { config := config, blocks := blocks, normFW := normFW, normFB := normFB,
          moduleDevice := device, ws := ws, freqs := none }

/-- `precompute_freqs_cis(seq_len, n_elem)` as a table: entry `(t, i)` is
the `t`-th power of the unit coefficient for frequency `i`
(see `freqsCisEntry`). -/
def precomputeFreqsCis (ws : ℕ → ℚ × ℚ) (seqLen device : ℕ) : FreqsTable :=
  { len := seqLen, device := device, data := fun t i => freqsCisEntry ws t i }

/-- `TorchZonosBackbone.allocate_inference_cache` (lines 64-78): recompute
the rotary table (16384 positions) unless one of at least 16384 positions
already lives on the module's device, then allocate one
`(batch_size, max_seqlen, 2, num_heads_kv, head_dim)` buffer per layer.
`torch.empty` leaves the buffer contents unspecified, which we model by
the explicit `initContents` parameter (one arbitrary content function per
layer index). -/
def allocateInferenceCache (bb : BackboneModel) (batchSize maxSeqlen : ℕ)
    (initContents : ℕ → ℕ → ℕ → ℕ → ℕ → ℕ → ℚ) :
    BackboneModel × (ℕ → Option KVCache) :=
  let headDim := bb.config.d_model / bb.config.num_heads
  let needRecompute : Bool :=
    match bb.freqs with
    | none => true
    | some t => decide (t.device ≠ bb.moduleDevice) || decide (t.len < 16384)
  let bb2 :=
    if needRecompute then
      { bb with freqs := some (precomputeFreqsCis bb.ws 16384 bb.moduleDevice) }
    else bb
  (bb2, fun i =>
    if i < bb.config.n_layer then
      some { maxBatch := batchSize, maxSeq := maxSeqlen,
             numHeadsKV := bb.config.num_heads_kv, headDim := headDim,
             data := initContents i }
    else none)

/-- `Attention.forward` (lines 139-180): project to q/k/v, apply RoPE to
q and k, update and fetch the layer's cache, expand kv heads for GQA
(raising `ValueError` when `num_heads` is not divisible by
`num_heads_kv`), run scaled dot-product attention with
`is_causal = seqlen > 1`, recombine heads and project out.  When the
(possibly expanded) key/value head count differs from the query head
count, `torch` raises at the attention call or the following `view`;
this is the final shape guard. -/
def attentionForward (E : ℚ → ℚ) (scale : ℚ) (cfg : BackboneConfig)
    (w : BlockWeights) (layerIdx batch L : ℕ) (x : HiddenT)
    (ip : InferenceParams) (freqs : ℕ → ℕ → ℚ × ℚ) :
    Except String (HiddenT × InferenceParams) :=
  let nh := cfg.num_heads
  let nkv := cfg.num_heads_kv
  let hd := cfg.d_model / nh
  let qSize := nh * hd
  let kvSize := nkv * hd
  let qkv := fun b t => linearNoBias w.inProj cfg.d_model (x b t)
  let q4 := fun b t h d => qkv b t (h * hd + d)
  let k4 := fun b t h d => qkv b t (qSize + (h * hd + d))
  let v4 := fun b t h d => qkv b t (qSize + kvSize + (h * hd + d))
  let qr := applyRotaryEmb4 freqs q4
  let kr := applyRotaryEmb4 freqs k4
  match updateKVCache ⟨batch, L, nkv, hd, kr⟩ ⟨batch, L, nkv, hd, v4⟩ ip layerIdx with
  | .error e => .error e
  | .ok (kvRet, ip2) =>
    if nkv < nh ∧ nh % nkv ≠ 0 then
      .error "ValueError: num_heads must be divisible by num_heads_kv for GQA."
    else if (if nkv < nh then nh else nkv) ≠ nh then
      .error "RuntimeError: key/value head count does not match query head count"
    else
      let out := fun b =>
        attnHeadsOut E scale nh nkv hd L kvRet.seq
          (fun h i d => qr b i h d)
          (fun g s d => kvRet.data b s 0 g d)
          (fun g s d => kvRet.data b s 1 g d)
      let y := fun b t f => out b (f / hd) t (f % hd)
      .ok (fun b t => linearNoBias w.outProj qSize (y b t), ip2)

/-- `TransformerBlock.forward` (lines 121-124): pre-norm residual
composition of attention and feed-forward. -/
def blockForward (E rsqrtF : ℚ → ℚ) (scale : ℚ) (cfg : BackboneConfig)
    (w : BlockWeights) (layerIdx batch L : ℕ) (x : HiddenT)
    (ip : InferenceParams) (freqs : ℕ → ℕ → ℚ × ℚ) :
    Except String (HiddenT × InferenceParams) :=
  let n1 := fun b t => layerNorm rsqrtF cfg.d_model cfg.norm_epsilon w.normW w.normB (x b t)
  match attentionForward E scale cfg w layerIdx batch L (fun b t d => n1 b t d) ip freqs with
  | .error e => .error e
  | .ok (attnOut, ip2) =>
    let x1 := fun b t d => x b t d + attnOut b t d
    let n2 := fun b t => layerNorm rsqrtF cfg.d_model cfg.norm_epsilon w.norm2W w.norm2B (x1 b t)
    let x2 := fun b t d =>
      x1 b t d +
        feedForward E cfg.d_model cfg.attn_mlp_d_intermediate w.fc1 w.fc2 (n2 b t) d
    .ok (x2, ip2)

/-- The layer loop of `TorchZonosBackbone.forward` (lines 100-101),
processing `count` layers starting at index `idx`. -/
def runLayers (E rsqrtF : ℚ → ℚ) (scale : ℚ) (cfg : BackboneConfig)
    (blocks : ℕ → BlockWeights) (batch L : ℕ) (freqs : ℕ → ℕ → ℚ × ℚ) :
    ℕ → ℕ → HiddenT → InferenceParams → Except String (HiddenT × InferenceParams)
  | _, 0, x, ip => .ok (x, ip)
  | idx, count + 1, x, ip =>
    match blockForward E rsqrtF scale cfg (blocks idx) idx batch L x ip freqs with
    | .error e => .error e
    | .ok (x2, ip2) => runLayers E rsqrtF scale cfg blocks batch L freqs (idx + 1) count x2 ip2

/-- `TorchZonosBackbone.forward` (lines 80-102): raises if the rotary
table is missing, slices it at the absolute positions
`[seqlen_offset, seqlen_offset + seq_len)` (an out-of-range position
raises an index error in `torch`), runs every layer in order, and applies
the final LayerNorm. -/
def backboneForward (E rsqrtF : ℚ → ℚ) (scale : ℚ) (bb : BackboneModel)
    (batch L : ℕ) (x : HiddenT) (ip : InferenceParams) :
    Except String (HiddenT × InferenceParams) :=
  match bb.freqs with
  | none => .error "RuntimeError: freqs_cis not initialized. Call allocate_inference_cache first."
  | some t =>
    if ip.seqlen_offset + L ≤ t.len then
      let freqsSlice := fun ti j => t.data (ip.seqlen_offset + ti) j
      match runLayers E rsqrtF scale bb.config bb.blocks batch L freqsSlice
          0 bb.config.n_layer x ip with
      | .error e => .error e
      | .ok (h2, ip2) =>
        .ok (fun b ti =>
          layerNorm rsqrtF bb.config.d_model bb.config.norm_epsilon bb.normFW bb.normFB
            (h2 b ti), ip2)
    else .error "IndexError: position index out of range of freqs_cis"

/-- Frame predicate for C9: the two decode states hold caches for exactly
the same layers, with identical shapes, and identical contents outside
the batch rectangle `[b0, bN)` × sequence rectangle `[s0, sN)`. -/
def cacheFrame (b0 bN s0 sN : ℕ) (ip ip2 : InferenceParams) : Prop :=
  ∀ l,
    match ip.key_value_memory_dict l, ip2.key_value_memory_dict l with
    | none, none => True
    | some c, some c2 =>
        c2.maxBatch = c.maxBatch ∧ c2.maxSeq = c.maxSeq ∧
          c2.numHeadsKV = c.numHeadsKV ∧ c2.headDim = c.headDim ∧
          ∀ b s slot h d, (b < b0 ∨ bN ≤ b ∨ s < s0 ∨ sN ≤ s) →
            c2.data b s slot h d = c.data b s slot h d
    | _, _ => False

/-- The cache round-trip scenario of C1: a prefill of length 3 at offset 0
followed by three decode writes of length 1 at offsets 3, 4, 5, all on
layer 0, with the offsets advanced externally between calls exactly as
the generation loop does. -/
def roundTripRun (dict0 : ℕ → Option KVCache) (kA vA kB vB kC vC kD vD : Tensor4) :
    Except String (TensorKV × InferenceParams) :=
  match updateKVCache kA vA ⟨0, 0, dict0⟩ 0 with
  | .error e => .error e
  | .ok r1 =>
    match updateKVCache kB vB { r1.2 with seqlen_offset := 3 } 0 with
    | .error e => .error e
    | .ok r2 =>
      match updateKVCache kC vC { r2.2 with seqlen_offset := 4 } 0 with
      | .error e => .error e
      | .ok r3 => updateKVCache kD vD { r3.2 with seqlen_offset := 5 } 0

/-- A minimal concrete configuration used by the witnesses: `d_model = 2`,
one layer, one query head, one key/value head, intermediate width 1,
`eps = 1`, transformer architecture. -/
def testConfig : BackboneConfig :=
  { d_model := 2, n_layer := 1, num_heads := 1, num_heads_kv := 1,
    attn_mlp_d_intermediate := 1, norm_epsilon := 1, ssm_cfg := false }

/-- All-zero weights for one block. -/
def zeroBlock : BlockWeights :=
  { normW := fun _ => 0, normB := fun _ => 0, inProj := fun _ _ => 0,
    outProj := fun _ _ => 0, norm2W := fun _ => 0, norm2B := fun _ => 0,
    fc1 := fun _ _ => 0, fc2 := fun _ _ => 0 }

/-- A concrete freshly-constructed backbone (rotary table not yet
materialized). -/
def testBackbone : BackboneModel :=
  { config := testConfig, blocks := fun _ => zeroBlock, normFW := fun _ => 0,
    normFB := fun _ => 0, moduleDevice := 0, ws := fun _ => (1, 0), freqs := none }

/-- The test backbone after cache allocation for batch 1, capacity 4,
zero-initialized buffers. -/
def testAllocated : BackboneModel × (ℕ → Option KVCache) :=
  allocateInferenceCache testBackbone 1 4 (fun _ _ _ _ _ _ => 0)

/-- A concrete 1×6 cache buffer, zero-filled. -/
def testCache6 : KVCache := ⟨1, 6, 1, 1, fun _ _ _ _ _ => 0⟩

/-- Decode state holding `testCache6` for layer 0 at offsets 0. -/
def testIP6 : InferenceParams := ⟨0, 0, fun l => if l = 0 then some testCache6 else none⟩

/-- Concrete prefill key chunk of length 3 (value = position). -/
def rtKA : Tensor4 := ⟨1, 3, 1, 1, fun _ s _ _ => (s : ℚ)⟩

/-- Concrete prefill value chunk of length 3. -/
def rtVA : Tensor4 := ⟨1, 3, 1, 1, fun _ s _ _ => (s : ℚ) + 100⟩

/-- Concrete decode key chunks of length 1. -/
def rtKB : Tensor4 := ⟨1, 1, 1, 1, fun _ _ _ _ => 10⟩

def rtVB : Tensor4 := ⟨1, 1, 1, 1, fun _ _ _ _ => 110⟩

def rtKC : Tensor4 := ⟨1, 1, 1, 1, fun _ _ _ _ => 20⟩

def rtVC : Tensor4 := ⟨1, 1, 1, 1, fun _ _ _ _ => 120⟩

def rtKD : Tensor4 := ⟨1, 1, 1, 1, fun _ _ _ _ => 30⟩

def rtVD : Tensor4 := ⟨1, 1, 1, 1, fun _ _ _ _ => 130⟩

/-- A fresh layer-0 cache as `allocate_inference_cache` produces it for the
test backbone with capacity 4 and position-dependent allocation contents. -/
def gapCache : KVCache := ⟨1, 4, 1, 2, fun _ s _ _ _ => (s : ℚ) * 7⟩

/-- Decode state addressing `gapCache` with a first write at offset 2. -/
def gapIP : InferenceParams := ⟨2, 0, fun i => if i = 0 then some gapCache else none⟩

def gapK : Tensor4 := ⟨1, 1, 1, 2, fun _ _ _ _ => 5⟩

def gapV : Tensor4 := ⟨1, 1, 1, 2, fun _ _ _ _ => 6⟩

/-- The divisibility-violating configuration of the spec's example:
`num_heads = 5`, `num_heads_kv = 2` (`d_model = 10`, so `head_dim = 2`). -/
def cfg52 : BackboneConfig := ⟨10, 1, 5, 2, 1, 1, false⟩

/-- A correctly-shaped layer-0 cache for `cfg52`. -/
def cache52 : KVCache := ⟨1, 8, 2, 2, fun _ _ _ _ _ => 0⟩

/-- Decode state holding `cache52` for layer 0. -/
def ip52 : InferenceParams := ⟨0, 0, fun i => if i = 0 then some cache52 else none⟩

lemma cmul_comm_pairs (a b : ℚ × ℚ) : cmul a b = cmul b a := by
  simp only [cmul]
  exact Prod.ext (by ring) (by ring)

lemma cmul_assoc_pairs (a b c : ℚ × ℚ) : cmul (cmul a b) c = cmul a (cmul b c) := by
  simp only [cmul]
  exact Prod.ext (by ring) (by ring)

lemma cmul_one_left (a : ℚ × ℚ) : cmul (1, 0) a = a := by
  simp only [cmul]
  exact Prod.ext (by ring) (by ring)

lemma cconj_cmul (a b : ℚ × ℚ) : cconj (cmul a b) = cmul (cconj a) (cconj b) := by
  simp only [cconj, cmul]
  exact Prod.ext (by ring) (by ring)

lemma cconj_cpow (a : ℚ × ℚ) (n : ℕ) : cconj (cpow a n) = cpow (cconj a) n := by
  induction n with
  | zero => simp [cpow, cconj]
  | succ n ih => simp [cpow, cconj_cmul, ih]

lemma cpow_add_pairs (a : ℚ × ℚ) (m n : ℕ) :
    cpow a (m + n) = cmul (cpow a m) (cpow a n) := by
  induction n with
  | zero => rw [Nat.add_zero, show cpow a 0 = (1, 0) from rfl, cmul_comm_pairs, cmul_one_left]
  | succ n ih =>
    have : m + (n + 1) = (m + n) + 1 := by ring
    rw [this]
    simp [cpow, ih, cmul_assoc_pairs]

lemma cmul_cpow_distrib (a b : ℚ × ℚ) (n : ℕ) :
    cmul (cpow a n) (cpow b n) = cpow (cmul a b) n := by
  induction n with
  | zero => simp [cpow, cmul_one_left]
  | succ n ih =>
    simp only [cpow]
    calc cmul (cmul (cpow a n) a) (cmul (cpow b n) b)
        = cmul (cmul (cpow a n) (cpow b n)) (cmul a b) := by
          simp only [cmul]; exact Prod.ext (by ring) (by ring)
      _ = cmul (cpow (cmul a b) n) (cmul a b) := by rw [ih]

lemma cconj_mul_self (a : ℚ × ℚ) : cmul (cconj a) a = (cnormSq a, 0) := by
  simp only [cconj, cmul, cnormSq]
  exact Prod.ext (by ring) (by ring)

lemma cpow_one_zero (n : ℕ) : cpow ((1 : ℚ), (0 : ℚ)) n = (1, 0) := by
  induction n with
  | zero => simp [cpow]
  | succ n ih => simp [cpow, ih, cmul]

/-- The key per-pair computation: the dot product of two rotated pairs is
the real part of `conj (x) * y * conj (a) * b` where `a`, `b` are the
rotation coefficients. -/
lemma pairDot_rotated (a b x y : ℚ × ℚ) :
    pairDot (applyRotaryPair a x) (applyRotaryPair b y) =
      pairDot x (cmul (cmul (cconj a) b) y) := by
  simp only [pairDot, applyRotaryPair, cmul, cconj]
  ring

/-- For a unit rotation coefficient, conjugate-power times shifted power
collapses to the power of the shift alone. -/
lemma cconj_pow_mul_pow (w : ℚ × ℚ) (h : cnormSq w = 1) (p r : ℕ) :
    cmul (cconj (cpow w p)) (cpow w (p + r)) = cpow w r := by
  rw [cconj_cpow, cpow_add_pairs, ← cmul_assoc_pairs, cmul_cpow_distrib,
    cconj_mul_self, h, cpow_one_zero, cmul_one_left]

/-- The rotated dot product at positions `(p, p+r)` reduces to an expression
in the distance `r` and the unrotated vectors only. -/
lemma ropeDot_eq_relative (ws : ℕ → ℚ × ℚ) (halfDim : ℕ)
    (h : ∀ i, i < halfDim → cnormSq (ws i) = 1) (p r : ℕ) (q k : ℕ → ℚ × ℚ) :
    ropeDot ws halfDim p (p + r) q k =
      ∑ i ∈ Finset.range halfDim, pairDot (q i) (cmul (cpow (ws i) r) (k i)) := by
  unfold ropeDot
  refine Finset.sum_congr rfl (fun i hi => ?_)
  rw [Finset.mem_range] at hi
  rw [ropeRotate, ropeRotate, freqsCisEntry, freqsCisEntry, pairDot_rotated,
    cconj_pow_mul_pow (ws i) (h i hi) p r]

/-- C3: for rotation tables built from unit coefficients (as
`precompute_freqs_cis` does, with coefficient `e^(I*f_i)` per frequency),
the dot product of a query rotated at position `p` with a key rotated at
position `p + r` depends only on the distance `r` and the unrotated
vectors: it is the same for every base position `p`. -/
theorem rope_relative_position_invariance (ws : ℕ → ℚ × ℚ) (halfDim : ℕ)
    (h : ∀ i, i < halfDim → cnormSq (ws i) = 1) (p p2 r : ℕ) (q k : ℕ → ℚ × ℚ) :
    ropeDot ws halfDim p (p + r) q k = ropeDot ws halfDim p2 (p2 + r) q k := by
  rw [ropeDot_eq_relative ws halfDim h p r q k,
    ropeDot_eq_relative ws halfDim h p2 r q k]

/-- Witness for C3 at concrete inputs: the unit coefficient `(3/5, 4/5)`,
two feature pairs, base positions `0` and `3`, distance `2`. -/
theorem rope_relative_position_invariance_witness :
    (∀ i, i < 2 → cnormSq ((fun _ => ((3/5 : ℚ), (4/5 : ℚ))) i) = 1) ∧
      ropeDot (fun _ => ((3/5 : ℚ), (4/5 : ℚ))) 2 0 (0 + 2)
          (fun i => ((i : ℚ), 1)) (fun i => (1, (i : ℚ))) =
        ropeDot (fun _ => ((3/5 : ℚ), (4/5 : ℚ))) 2 3 (3 + 2)
          (fun i => ((i : ℚ), 1)) (fun i => (1, (i : ℚ))) := by
  have hunit : ∀ i, i < 2 → cnormSq ((fun _ => ((3/5 : ℚ), (4/5 : ℚ))) i) = 1 := by
    intro i _
    show cnormSq ((3/5 : ℚ), (4/5 : ℚ)) = 1
    norm_num [cnormSq]
  exact ⟨hunit, rope_relative_position_invariance (fun _ => ((3/5 : ℚ), (4/5 : ℚ))) 2
    hunit 0 3 2 (fun i => ((i : ℚ), 1)) (fun i => (1, (i : ℚ)))⟩

/-- Success-path equation for `updateKVCache`: under the three `assert`
conditions and shape compatibility, the update succeeds and produces
exactly the written cache and its view. -/
lemma updateKVCache_eq_ok (k v : Tensor4) (ip : InferenceParams) (layerIdx : ℕ)
    (cache : KVCache) (hdict : ip.key_value_memory_dict layerIdx = some cache)
    (hb : ip.batch_size_offset + k.batch ≤ cache.maxBatch)
    (hs : ip.seqlen_offset + k.seq ≤ cache.maxSeq)
    (hsh : chunkShapesOk cache k v) :
    updateKVCache k v ip layerIdx =
      .ok (cacheView (cacheWrite cache ip.batch_size_offset ip.seqlen_offset k v)
          ip.batch_size_offset k.batch (ip.seqlen_offset + k.seq),
        dictSet ip layerIdx
          (cacheWrite cache ip.batch_size_offset ip.seqlen_offset k v)) := by
  unfold updateKVCache
  rw [hdict]
  simp only [if_pos hb, if_pos hs, if_pos hsh]

/-! ## Cache update lemmas -/

lemma cacheWrite_data_key (cache : KVCache) (k v : Tensor4) (b0 s0 b s h d : ℕ)
    (h1 : b0 ≤ b) (h2 : b < b0 + k.batch) (h3 : s0 ≤ s) (h4 : s < s0 + k.seq) :
    (cacheWrite cache b0 s0 k v).data b s 0 h d = k.data (b - b0) (s - s0) h d := by
  show (if b0 ≤ b ∧ b < b0 + k.batch ∧ s0 ≤ s ∧ s < s0 + k.seq ∧ (0 : ℕ) = 0 then
      k.data (b - b0) (s - s0) h d
    else if b0 ≤ b ∧ b < b0 + k.batch ∧ s0 ≤ s ∧ s < s0 + k.seq ∧ (0 : ℕ) = 1 then
      v.data (b - b0) (s - s0) h d
    else cache.data b s 0 h d) = k.data (b - b0) (s - s0) h d
  rw [if_pos ⟨h1, h2, h3, h4, rfl⟩]

lemma cacheWrite_data_value (cache : KVCache) (k v : Tensor4) (b0 s0 b s h d : ℕ)
    (h1 : b0 ≤ b) (h2 : b < b0 + k.batch) (h3 : s0 ≤ s) (h4 : s < s0 + k.seq) :
    (cacheWrite cache b0 s0 k v).data b s 1 h d = v.data (b - b0) (s - s0) h d := by
  show (if b0 ≤ b ∧ b < b0 + k.batch ∧ s0 ≤ s ∧ s < s0 + k.seq ∧ (1 : ℕ) = 0 then
      k.data (b - b0) (s - s0) h d
    else if b0 ≤ b ∧ b < b0 + k.batch ∧ s0 ≤ s ∧ s < s0 + k.seq ∧ (1 : ℕ) = 1 then
      v.data (b - b0) (s - s0) h d
    else cache.data b s 1 h d) = v.data (b - b0) (s - s0) h d
  rw [if_neg (by omega), if_pos ⟨h1, h2, h3, h4, rfl⟩]

lemma cacheWrite_data_outside (cache : KVCache) (k v : Tensor4) (b0 s0 b s slot h d : ℕ)
    (hout : b < b0 ∨ b0 + k.batch ≤ b ∨ s < s0 ∨ s0 + k.seq ≤ s) :
    (cacheWrite cache b0 s0 k v).data b s slot h d = cache.data b s slot h d := by
  show (if b0 ≤ b ∧ b < b0 + k.batch ∧ s0 ≤ s ∧ s < s0 + k.seq ∧ slot = 0 then
      k.data (b - b0) (s - s0) h d
    else if b0 ≤ b ∧ b < b0 + k.batch ∧ s0 ≤ s ∧ s < s0 + k.seq ∧ slot = 1 then
      v.data (b - b0) (s - s0) h d
    else cache.data b s slot h d) = cache.data b s slot h d
  rw [if_neg (by omega), if_neg (by omega)]

lemma cacheWrite_maxBatch (cache : KVCache) (k v : Tensor4) (b0 s0 : ℕ) :
    (cacheWrite cache b0 s0 k v).maxBatch = cache.maxBatch := rfl

lemma cacheWrite_maxSeq (cache : KVCache) (k v : Tensor4) (b0 s0 : ℕ) :
    (cacheWrite cache b0 s0 k v).maxSeq = cache.maxSeq := rfl

/-- C7: the KV-cache update fails (no successful return, hence no visible
write) whenever the layer has no allocated cache in the decode state's
cache map, or the addressed batch range exceeds the allocated `max_batch`,
or the addressed sequence range exceeds the allocated `max_seq_len`. -/
theorem updateKVCache_rejects_out_of_capacity (k v : Tensor4) (ip : InferenceParams)
    (l : ℕ)
    (h : ip.key_value_memory_dict l = none ∨
      ∃ c, ip.key_value_memory_dict l = some c ∧
        (c.maxBatch < ip.batch_size_offset + k.batch ∨
          c.maxSeq < ip.seqlen_offset + k.seq)) :
    isOkE (updateKVCache k v ip l) = false := by
  rcases h with h | ⟨c, hc, hcap⟩
  · unfold updateKVCache
    rw [h]
    rfl
  · unfold updateKVCache
    rw [hc]
    rcases hcap with hb | hs
    · simp only [if_neg (show ¬ ip.batch_size_offset + k.batch ≤ c.maxBatch by omega)]
      rfl
    · by_cases hble : ip.batch_size_offset + k.batch ≤ c.maxBatch
      · simp only [if_pos hble,
          if_neg (show ¬ ip.seqlen_offset + k.seq ≤ c.maxSeq by omega)]
        rfl
      · simp only [if_neg hble]
        rfl

/-- Witness for C7: a call on a decode state whose cache map holds no
cache for layer 0 fails. -/
theorem updateKVCache_rejects_out_of_capacity_witness :
    ((⟨0, 0, fun _ => none⟩ : InferenceParams).key_value_memory_dict 0 = none ∨
      ∃ c, (⟨0, 0, fun _ => none⟩ : InferenceParams).key_value_memory_dict 0 = some c ∧
        (c.maxBatch < 0 + 1 ∨ c.maxSeq < 0 + 1)) ∧
      isOkE (updateKVCache ⟨1, 1, 1, 1, fun _ _ _ _ => 0⟩ ⟨1, 1, 1, 1, fun _ _ _ _ => 0⟩
        ⟨0, 0, fun _ => none⟩ 0) = false := by
  refine ⟨Or.inl rfl, ?_⟩
  exact updateKVCache_rejects_out_of_capacity
    ⟨1, 1, 1, 1, fun _ _ _ _ => 0⟩ ⟨1, 1, 1, 1, fun _ _ _ _ => 0⟩
    ⟨0, 0, fun _ => none⟩ 0 (Or.inl rfl)

/-- C8: constructing the backbone with a configuration whose architecture
selector indicates the state-space variant fails at construction time with
the assertion error; no model object (hence no layer stack) is produced. -/
theorem backbone_init_rejects_ssm_config (config : BackboneConfig)
    (blocks : ℕ → BlockWeights) (normFW normFB : ℕ → ℚ) (device : ℕ)
    (ws : ℕ → ℚ × ℚ) (h : config.ssm_cfg = true) :
    mkBackbone config blocks normFW normFB device ws =
      .error "AssertionError: This backbone implementation only supports the Transformer model." := by
  unfold mkBackbone
  rw [h]
  rfl

/-- Witness for C8: the concrete configuration with a truthy `ssm_cfg`. -/
theorem backbone_init_rejects_ssm_config_witness :
    ({ testConfig with ssm_cfg := true } : BackboneConfig).ssm_cfg = true ∧
      mkBackbone { testConfig with ssm_cfg := true } (fun _ => zeroBlock)
        (fun _ => 0) (fun _ => 0) 0 (fun _ => (1, 0)) =
      .error "AssertionError: This backbone implementation only supports the Transformer model." :=
  ⟨rfl, backbone_init_rejects_ssm_config { testConfig with ssm_cfg := true }
    (fun _ => zeroBlock) (fun _ => 0) (fun _ => 0) 0 (fun _ => (1, 0)) rfl⟩

/-- Inversion of a successful `updateKVCache` call: the layer had a cache,
the addressed ranges were in capacity, the shapes matched, and the results
are exactly the written cache's view and the updated dictionary. -/
lemma updateKVCache_ok_inv (k v : Tensor4) (ip : InferenceParams) (l : ℕ)
    (r : TensorKV) (ip2 : InferenceParams)
    (h : updateKVCache k v ip l = .ok (r, ip2)) :
    ∃ cache, ip.key_value_memory_dict l = some cache ∧
      ip.batch_size_offset + k.batch ≤ cache.maxBatch ∧
      ip.seqlen_offset + k.seq ≤ cache.maxSeq ∧ chunkShapesOk cache k v ∧
      r = cacheView (cacheWrite cache ip.batch_size_offset ip.seqlen_offset k v)
            ip.batch_size_offset k.batch (ip.seqlen_offset + k.seq) ∧
      ip2 = dictSet ip l (cacheWrite cache ip.batch_size_offset ip.seqlen_offset k v) := by
  unfold updateKVCache at h
  cases hdict : ip.key_value_memory_dict l with
  | none =>
    rw [hdict] at h
    exact absurd h (by simp)
  | some cache =>
    rw [hdict] at h
    simp only at h
    split_ifs at h with h1 h2 h3
    · injection h with hab
      exact ⟨cache, rfl, h1, h2, h3,
        (congrArg Prod.fst hab).symm, (congrArg Prod.snd hab).symm⟩

/-- C1: an in-capacity KV-cache update writes the keys into slot 0 and the
values into slot 1 of the addressed rectangle, returns the view covering
the addressed batch rows and all columns up to `seqlen_offset + seq_chunk`,
and consequently a prefill of length 3 at offset 0 followed by decode
writes of length 1 at offsets 3, 4, 5 retrieves the in-order concatenation
of the four writes. -/
theorem kv_cache_update_writes_and_returns (k v : Tensor4) (ip : InferenceParams)
    (l : ℕ) (cache : KVCache)
    (hdict : ip.key_value_memory_dict l = some cache)
    (hb : ip.batch_size_offset + k.batch ≤ cache.maxBatch)
    (hs : ip.seqlen_offset + k.seq ≤ cache.maxSeq)
    (hsh : chunkShapesOk cache k v) :
    (updateKVCache k v ip l =
        .ok (cacheView (cacheWrite cache ip.batch_size_offset ip.seqlen_offset k v)
              ip.batch_size_offset k.batch (ip.seqlen_offset + k.seq),
          dictSet ip l (cacheWrite cache ip.batch_size_offset ip.seqlen_offset k v)) ∧
      (∀ b s h d, b < k.batch → s < k.seq →
        (cacheWrite cache ip.batch_size_offset ip.seqlen_offset k v).data
            (ip.batch_size_offset + b) (ip.seqlen_offset + s) 0 h d = k.data b s h d ∧
          (cacheWrite cache ip.batch_size_offset ip.seqlen_offset k v).data
            (ip.batch_size_offset + b) (ip.seqlen_offset + s) 1 h d = v.data b s h d) ∧
      (∀ b s slot h d,
        (cacheView (cacheWrite cache ip.batch_size_offset ip.seqlen_offset k v)
            ip.batch_size_offset k.batch (ip.seqlen_offset + k.seq)).data b s slot h d =
          (cacheWrite cache ip.batch_size_offset ip.seqlen_offset k v).data
            (ip.batch_size_offset + b) s slot h d)) ∧
    (∀ (cache0 : KVCache) (kA vA kB vB kC vC kD vD : Tensor4),
      kA.seq = 3 → kB.seq = 1 → kC.seq = 1 → kD.seq = 1 →
      kB.batch = kA.batch → kC.batch = kA.batch → kD.batch = kA.batch →
      ∀ r, okRetOf (roundTripRun (fun i => if i = 0 then some cache0 else none)
          kA vA kB vB kC vC kD vD) = some r →
        ∀ b h d, b < kA.batch →
          (∀ s, s < 3 → r.data b s 0 h d = kA.data b s h d ∧
            r.data b s 1 h d = vA.data b s h d) ∧
          (r.data b 3 0 h d = kB.data b 0 h d ∧ r.data b 3 1 h d = vB.data b 0 h d) ∧
          (r.data b 4 0 h d = kC.data b 0 h d ∧ r.data b 4 1 h d = vC.data b 0 h d) ∧
          (r.data b 5 0 h d = kD.data b 0 h d ∧ r.data b 5 1 h d = vD.data b 0 h d)) := by
  refine ⟨⟨updateKVCache_eq_ok k v ip l cache hdict hb hs hsh, ?_, ?_⟩, ?_⟩
  · intro b s h d hbb hss
    constructor
    · rw [cacheWrite_data_key cache k v _ _ _ _ h d (by omega) (by omega) (by omega)
        (by omega), Nat.add_sub_cancel_left, Nat.add_sub_cancel_left]
    · rw [cacheWrite_data_value cache k v _ _ _ _ h d (by omega) (by omega) (by omega)
        (by omega), Nat.add_sub_cancel_left, Nat.add_sub_cancel_left]
  · intro b s slot h d
    rfl
  · intro cache0 kA vA kB vB kC vC kD vD hA hB hC hD hbB hbC hbD r hr b h d hbb
    unfold roundTripRun at hr
    cases hu1 : updateKVCache kA vA
        ⟨0, 0, fun i => if i = 0 then some cache0 else none⟩ 0 with
    | error e => simp only [hu1] at hr; simp [okRetOf] at hr
    | ok r1 =>
    obtain ⟨r1v, r1s⟩ := r1
    simp only [hu1] at hr
    obtain ⟨c1, hd1, -, -, -, -, hip1⟩ := updateKVCache_ok_inv kA vA _ 0 r1v r1s hu1
    have hd1e : (if (0 : ℕ) = 0 then some cache0 else none) = some c1 := hd1
    rw [if_pos rfl] at hd1e
    injection hd1e with hd1e
    subst hd1e
    have hip1e : r1s =
        dictSet ⟨0, 0, fun i => if i = 0 then some cache0 else none⟩ 0
          (cacheWrite cache0 0 0 kA vA) := hip1
    clear hip1 hd1 hu1
    cases hu2 : updateKVCache kB vB { r1s with seqlen_offset := 3 } 0 with
    | error e => simp only [hu2] at hr; simp [okRetOf] at hr
    | ok r2 =>
    obtain ⟨r2v, r2s⟩ := r2
    simp only [hu2] at hr
    obtain ⟨c2, hd2, -, -, -, -, hip2⟩ := updateKVCache_ok_inv kB vB _ 0 r2v r2s hu2
    rw [hip1e] at hd2 hip2
    have hd2e : (dictSet ⟨0, 0, fun i => if i = 0 then some cache0 else none⟩ 0
        (cacheWrite cache0 0 0 kA vA)).key_value_memory_dict 0 = some c2 := hd2
    simp [dictSet] at hd2e
    subst hd2e
    have hip2e : r2s =
        dictSet { dictSet ⟨0, 0, fun i => if i = 0 then some cache0 else none⟩ 0
            (cacheWrite cache0 0 0 kA vA) with seqlen_offset := 3 } 0
          (cacheWrite (cacheWrite cache0 0 0 kA vA) 0 3 kB vB) := hip2
    clear hip2 hd2 hu2
    cases hu3 : updateKVCache kC vC { r2s with seqlen_offset := 4 } 0 with
    | error e => simp only [hu3] at hr; simp [okRetOf] at hr
    | ok r3 =>
    obtain ⟨r3v, r3s⟩ := r3
    simp only [hu3] at hr
    obtain ⟨c3, hd3, -, -, -, -, hip3⟩ := updateKVCache_ok_inv kC vC _ 0 r3v r3s hu3
    rw [hip2e] at hd3 hip3
    have hd3e : (dictSet { dictSet ⟨0, 0, fun i => if i = 0 then some cache0 else none⟩ 0
        (cacheWrite cache0 0 0 kA vA) with seqlen_offset := 3 } 0
          (cacheWrite (cacheWrite cache0 0 0 kA vA) 0 3 kB vB)).key_value_memory_dict 0 =
        some c3 := hd3
    simp [dictSet] at hd3e
    subst hd3e
    have hip3e : r3s =
        dictSet { dictSet { dictSet ⟨0, 0, fun i => if i = 0 then some cache0 else none⟩ 0
              (cacheWrite cache0 0 0 kA vA) with seqlen_offset := 3 } 0
            (cacheWrite (cacheWrite cache0 0 0 kA vA) 0 3 kB vB) with seqlen_offset := 4 } 0
          (cacheWrite (cacheWrite (cacheWrite cache0 0 0 kA vA) 0 3 kB vB) 0 4 kC vC) := hip3
    clear hip3 hd3 hu3
    cases hu4 : updateKVCache kD vD { r3s with seqlen_offset := 5 } 0 with
    | error e => simp only [hu4] at hr; simp [okRetOf] at hr
    | ok r4 =>
    obtain ⟨r4v, r4s⟩ := r4
    simp only [hu4, okRetOf] at hr
    obtain ⟨c4, hd4, -, -, -, hr4, -⟩ := updateKVCache_ok_inv kD vD _ 0 r4v r4s hu4
    rw [hip3e] at hd4 hr4
    have hd4e : (dictSet { dictSet { dictSet
          ⟨0, 0, fun i => if i = 0 then some cache0 else none⟩ 0
            (cacheWrite cache0 0 0 kA vA) with seqlen_offset := 3 } 0
          (cacheWrite (cacheWrite cache0 0 0 kA vA) 0 3 kB vB) with seqlen_offset := 4 } 0
        (cacheWrite (cacheWrite (cacheWrite cache0 0 0 kA vA) 0 3 kB
          vB) 0 4 kC vC)).key_value_memory_dict 0 = some c4 := hd4
    simp [dictSet] at hd4e
    subst hd4e
    have hr4e : r4v =
        cacheView (cacheWrite (cacheWrite (cacheWrite (cacheWrite cache0 0 0 kA vA)
            0 3 kB vB) 0 4 kC vC) 0 5 kD vD) 0 kD.batch (5 + kD.seq) := hr4
    injection hr with hre
    rw [← hre, hr4e]
    refine ⟨?_, ⟨?_, ?_⟩, ⟨?_, ?_⟩, ⟨?_, ?_⟩⟩
    · intro s hss
      constructor
      · show (cacheWrite (cacheWrite (cacheWrite (cacheWrite cache0 0 0 kA vA) 0 3 kB vB)
            0 4 kC vC) 0 5 kD vD).data (0 + b) s 0 h d = kA.data b s h d
        rw [cacheWrite_data_outside _ kD vD 0 5 (0 + b) s 0 h d (by omega),
          cacheWrite_data_outside _ kC vC 0 4 (0 + b) s 0 h d (by omega),
          cacheWrite_data_outside _ kB vB 0 3 (0 + b) s 0 h d (by omega),
          cacheWrite_data_key cache0 kA vA 0 0 (0 + b) s h d (by omega) (by omega)
            (by omega) (by omega)]
        simp
      · show (cacheWrite (cacheWrite (cacheWrite (cacheWrite cache0 0 0 kA vA) 0 3 kB vB)
            0 4 kC vC) 0 5 kD vD).data (0 + b) s 1 h d = vA.data b s h d
        rw [cacheWrite_data_outside _ kD vD 0 5 (0 + b) s 1 h d (by omega),
          cacheWrite_data_outside _ kC vC 0 4 (0 + b) s 1 h d (by omega),
          cacheWrite_data_outside _ kB vB 0 3 (0 + b) s 1 h d (by omega),
          cacheWrite_data_value cache0 kA vA 0 0 (0 + b) s h d (by omega) (by omega)
            (by omega) (by omega)]
        simp
    · show (cacheWrite (cacheWrite (cacheWrite (cacheWrite cache0 0 0 kA vA) 0 3 kB vB)
          0 4 kC vC) 0 5 kD vD).data (0 + b) 3 0 h d = kB.data b 0 h d
      rw [cacheWrite_data_outside _ kD vD 0 5 (0 + b) 3 0 h d (by omega),
        cacheWrite_data_outside _ kC vC 0 4 (0 + b) 3 0 h d (by omega),
        cacheWrite_data_key (cacheWrite cache0 0 0 kA vA) kB vB 0 3 (0 + b) 3 h d
          (by omega) (by omega) (by omega) (by omega)]
      simp
    · show (cacheWrite (cacheWrite (cacheWrite (cacheWrite cache0 0 0 kA vA) 0 3 kB vB)
          0 4 kC vC) 0 5 kD vD).data (0 + b) 3 1 h d = vB.data b 0 h d
      rw [cacheWrite_data_outside _ kD vD 0 5 (0 + b) 3 1 h d (by omega),
        cacheWrite_data_outside _ kC vC 0 4 (0 + b) 3 1 h d (by omega),
        cacheWrite_data_value (cacheWrite cache0 0 0 kA vA) kB vB 0 3 (0 + b) 3 h d
          (by omega) (by omega) (by omega) (by omega)]
      simp
    · show (cacheWrite (cacheWrite (cacheWrite (cacheWrite cache0 0 0 kA vA) 0 3 kB vB)
          0 4 kC vC) 0 5 kD vD).data (0 + b) 4 0 h d = kC.data b 0 h d
      rw [cacheWrite_data_outside _ kD vD 0 5 (0 + b) 4 0 h d (by omega),
        cacheWrite_data_key (cacheWrite (cacheWrite cache0 0 0 kA vA) 0 3 kB vB) kC vC
          0 4 (0 + b) 4 h d (by omega) (by omega) (by omega) (by omega)]
      simp
    · show (cacheWrite (cacheWrite (cacheWrite (cacheWrite cache0 0 0 kA vA) 0 3 kB vB)
          0 4 kC vC) 0 5 kD vD).data (0 + b) 4 1 h d = vC.data b 0 h d
      rw [cacheWrite_data_outside _ kD vD 0 5 (0 + b) 4 1 h d (by omega),
        cacheWrite_data_value (cacheWrite (cacheWrite cache0 0 0 kA vA) 0 3 kB vB) kC vC
          0 4 (0 + b) 4 h d (by omega) (by omega) (by omega) (by omega)]
      simp
    · show (cacheWrite (cacheWrite (cacheWrite (cacheWrite cache0 0 0 kA vA) 0 3 kB vB)
          0 4 kC vC) 0 5 kD vD).data (0 + b) 5 0 h d = kD.data b 0 h d
      rw [cacheWrite_data_key (cacheWrite (cacheWrite (cacheWrite cache0 0 0 kA vA)
          0 3 kB vB) 0 4 kC vC) kD vD 0 5 (0 + b) 5 h d (by omega) (by omega)
          (by omega) (by omega)]
      simp
    · show (cacheWrite (cacheWrite (cacheWrite (cacheWrite cache0 0 0 kA vA) 0 3 kB vB)
          0 4 kC vC) 0 5 kD vD).data (0 + b) 5 1 h d = vD.data b 0 h d
      rw [cacheWrite_data_value (cacheWrite (cacheWrite (cacheWrite cache0 0 0 kA vA)
          0 3 kB vB) 0 4 kC vC) kD vD 0 5 (0 + b) 5 h d (by omega) (by omega)
          (by omega) (by omega)]
      simp

/-- Witness for C1: the hypotheses hold at a concrete in-capacity call, the
successful-update equation follows, and the concrete round-trip run
succeeds with the decode write of offset 4 retrieved at column 4. -/
theorem kv_cache_update_writes_and_returns_witness :
    (testIP6.key_value_memory_dict 0 = some testCache6 ∧
      testIP6.batch_size_offset + rtKA.batch ≤ testCache6.maxBatch ∧
      testIP6.seqlen_offset + rtKA.seq ≤ testCache6.maxSeq ∧
      chunkShapesOk testCache6 rtKA rtVA) ∧
    updateKVCache rtKA rtVA testIP6 0 =
      .ok (cacheView (cacheWrite testCache6 0 0 rtKA rtVA) 0 1 3,
        dictSet testIP6 0 (cacheWrite testCache6 0 0 rtKA rtVA)) ∧
    ∃ r, okRetOf (roundTripRun (fun i => if i = 0 then some testCache6 else none)
        rtKA rtVA rtKB rtVB rtKC rtVC rtKD rtVD) = some r ∧
      r.data 0 4 0 0 0 = rtKC.data 0 0 0 0 := by
  have hmain := kv_cache_update_writes_and_returns rtKA rtVA testIP6 0 testCache6
    rfl (by decide) (by decide) (by decide)
  refine ⟨⟨rfl, by decide, by decide, by decide⟩, hmain.1.1, ?_⟩
  have hok : isOkE (roundTripRun (fun i => if i = 0 then some testCache6 else none)
      rtKA rtVA rtKB rtVB rtKC rtVC rtKD rtVD) = true := rfl
  cases hres : roundTripRun (fun i => if i = 0 then some testCache6 else none)
      rtKA rtVA rtKB rtVB rtKC rtVC rtKD rtVD with
  | error e => rw [hres] at hok; exact absurd hok (by simp [isOkE])
  | ok p =>
    obtain ⟨pv, ps⟩ := p
    refine ⟨pv, rfl, ?_⟩
    exact (hmain.2 testCache6 rtKA rtVA rtKB rtVB rtKC rtVC rtKD rtVD
      rfl rfl rfl rfl rfl rfl rfl pv (by rw [hres]; rfl) 0 0 0 (by decide)).2.2.1.1

/-- C10: the update tracks no per-column validity: an in-capacity first
call at `seqlen_offset > 0` on a freshly allocated cache succeeds, and the
returned view's columns `[0, seqlen_offset)` are read straight from the
buffer, i.e. they hold the allocation-time (uninitialized, here modelled
by `initContents`) contents. -/
theorem kv_cache_gap_returns_allocation_contents
    (bb : BackboneModel) (batchSize maxSeqlen : ℕ)
    (initContents : ℕ → ℕ → ℕ → ℕ → ℕ → ℕ → ℚ) (l : ℕ) (cache : KVCache)
    (hl : (allocateInferenceCache bb batchSize maxSeqlen initContents).2 l = some cache)
    (ip : InferenceParams) (k v : Tensor4)
    (hdict : ip.key_value_memory_dict l = some cache)
    (hpos : 0 < ip.seqlen_offset)
    (hb : ip.batch_size_offset + k.batch ≤ cache.maxBatch)
    (hs : ip.seqlen_offset + k.seq ≤ cache.maxSeq)
    (hsh : chunkShapesOk cache k v) :
    isOkE (updateKVCache k v ip l) = true ∧
      cache.data = initContents l ∧
      (∀ r, okRetOf (updateKVCache k v ip l) = some r →
        ∀ b s slot h d, s < ip.seqlen_offset →
          r.data b s slot h d = initContents l (ip.batch_size_offset + b) s slot h d) := by
  have he := updateKVCache_eq_ok k v ip l cache hdict hb hs hsh
  have hdata : cache.data = initContents l := by
    have hl2 : (if l < bb.config.n_layer then
        some (⟨batchSize, maxSeqlen, bb.config.num_heads_kv,
          bb.config.d_model / bb.config.num_heads, initContents l⟩ : KVCache)
      else none) = some cache := hl
    by_cases hln : l < bb.config.n_layer
    · rw [if_pos hln] at hl2
      injection hl2 with h2
      rw [← h2]
    · rw [if_neg hln] at hl2
      exact absurd hl2 (by simp)
  refine ⟨by rw [he]; rfl, hdata, ?_⟩
  intro r hr b s slot h d hss
  rw [he] at hr
  have hr2 : some (cacheView (cacheWrite cache ip.batch_size_offset ip.seqlen_offset k v)
      ip.batch_size_offset k.batch (ip.seqlen_offset + k.seq)) = some r := hr
  injection hr2 with hr2
  rw [← hr2]
  show (cacheWrite cache ip.batch_size_offset ip.seqlen_offset k v).data
      (ip.batch_size_offset + b) s slot h d = initContents l (ip.batch_size_offset + b) s slot h d
  rw [cacheWrite_data_outside cache k v _ _ _ _ slot h d (by omega), hdata]

/-- Witness for C10 at the concrete gap call. -/
theorem kv_cache_gap_returns_allocation_contents_witness :
    ((allocateInferenceCache testBackbone 1 4 (fun (_ _ s _ _ _ : ℕ) => (s : ℚ) * 7)).2 0 =
        some gapCache ∧ 0 < gapIP.seqlen_offset) ∧
      (isOkE (updateKVCache gapK gapV gapIP 0) = true ∧
        gapCache.data = (fun (_ _ s _ _ _ : ℕ) => (s : ℚ) * 7) 0 ∧
        (∀ r, okRetOf (updateKVCache gapK gapV gapIP 0) = some r →
          ∀ b s slot h d, s < gapIP.seqlen_offset →
            r.data b s slot h d = (fun (_ _ s _ _ _ : ℕ) => (s : ℚ) * 7) 0
              (gapIP.batch_size_offset + b) s slot h d)) :=
  ⟨⟨rfl, by decide⟩,
    kv_cache_gap_returns_allocation_contents testBackbone 1 4
      (fun (_ _ s _ _ _ : ℕ) => (s : ℚ) * 7) 0 gapCache rfl gapIP gapK gapV rfl
      (by decide) (by decide) (by decide) (by decide)⟩

/-! ## Causal masking policy -/

lemma maskAllowed_gt_false (i j : ℕ) (hij : i < j) : maskAllowed true i j = false := by
  simp only [maskAllowed, Bool.not_true, Bool.false_or, decide_eq_false_iff_not]
  omega

lemma sdpaWeight_masked (E : ℚ → ℚ) (S : ℕ) (score : ℕ → ℚ) (i j : ℕ) (hij : i < j) :
    sdpaWeight E true S score i j = 0 := by
  unfold sdpaWeight
  rw [maskAllowed_gt_false i j hij]
  simp

lemma sdpaWeight_congr (E : ℚ → ℚ) (S : ℕ) (score score2 : ℕ → ℚ) (i j : ℕ)
    (hsc : ∀ m, m ≤ i → score m = score2 m) :
    sdpaWeight E true S score i j = sdpaWeight E true S score2 i j := by
  unfold sdpaWeight
  by_cases hij : j ≤ i
  · have hm : maskAllowed true i j = true := by simp [maskAllowed, hij]
    rw [hm]
    rw [if_pos rfl, if_pos rfl, hsc j hij]
    congr 1
    refine Finset.sum_congr rfl (fun m hm2 => ?_)
    rw [Finset.mem_filter] at hm2
    have hmi : m ≤ i := by
      have h2 := hm2.2
      simp [maskAllowed] at h2
      exact h2
    rw [hsc m hmi]
  · rw [maskAllowed_gt_false i j (by omega)]
    simp

/-- C2: the causal mask is applied iff the call's query length exceeds 1:
(1) for a multi-token call, the attention weight of any key position
beyond the query position is zero; (2) for a single-token call no mask is
applied at all; (3) hence for a multi-token call the attention output at
query position `i` is invariant to the cached keys/values beyond position
`i`; and (4) for a single-token call the output genuinely depends on the
newest cached position. -/
theorem causal_mask_applied_iff_multi_token :
    (∀ (E : ℚ → ℚ) (S : ℕ) (score : ℕ → ℚ) (L i j : ℕ), 1 < L → i < j →
      sdpaWeight E (decide (1 < L)) S score i j = 0) ∧
    (∀ (L i j : ℕ), L = 1 → maskAllowed (decide (1 < L)) i j = true) ∧
    (∀ (E : ℚ → ℚ) (scale : ℚ) (hd L S : ℕ) (q kk vv kk2 vv2 : ℕ → ℕ → ℚ) (i d : ℕ),
      1 < L →
      (∀ m, m ≤ i → ∀ e, kk m e = kk2 m e) →
      (∀ m, m ≤ i → ∀ e, vv m e = vv2 m e) →
      sdpaHead E scale (decide (1 < L)) hd S q kk vv i d =
        sdpaHead E scale (decide (1 < L)) hd S q kk2 vv2 i d) ∧
    (sdpaHead (fun _ => 1) 1 (decide (1 < 1)) 1 2 (fun _ _ => 1) (fun _ _ => 1)
        (fun j _ => if j = 1 then 1 else 0) 0 0 ≠
      sdpaHead (fun _ => 1) 1 (decide (1 < 1)) 1 2 (fun _ _ => 1) (fun _ _ => 1)
        (fun _ _ => 0) 0 0) := by
  refine ⟨?_, ?_, ?_, ?_⟩
  · intro E S score L i j hL hij
    rw [decide_eq_true hL]
    exact sdpaWeight_masked E S score i j hij
  · intro L i j hL
    subst hL
    rfl
  · intro E scale hd L S q kk vv kk2 vv2 i d hL hk hv
    rw [decide_eq_true hL]
    unfold sdpaHead
    refine Finset.sum_congr rfl (fun j hj => ?_)
    by_cases hij : j ≤ i
    · have hw : sdpaWeight E true S
          (fun m => scale * ∑ e ∈ Finset.range hd, q i e * kk m e) i j =
          sdpaWeight E true S
            (fun m => scale * ∑ e ∈ Finset.range hd, q i e * kk2 m e) i j := by
        apply sdpaWeight_congr
        intro m hmi
        congr 1
        refine Finset.sum_congr rfl (fun e he => ?_)
        rw [hk m hmi e]
      rw [hw, hv j hij d]
    · rw [sdpaWeight_masked _ _ _ _ _ (by omega), sdpaWeight_masked _ _ _ _ _ (by omega)]
      ring
  · have h1 : sdpaHead (fun _ => 1) 1 (decide (1 < 1)) 1 2 (fun _ _ => 1) (fun _ _ => 1)
        (fun j _ => if j = 1 then 1 else 0) 0 0 = 1 / 2 := by
      norm_num [sdpaHead, sdpaWeight, maskAllowed, Finset.sum_range_succ,
        Finset.filter_true_of_mem]
    have h2 : sdpaHead (fun _ => 1) 1 (decide (1 < 1)) 1 2 (fun _ _ => 1) (fun _ _ => 1)
        (fun _ _ => 0) 0 0 = 0 := by
      norm_num [sdpaHead, sdpaWeight, maskAllowed, Finset.sum_range_succ,
        Finset.filter_true_of_mem]
    rw [Ne, h1, h2]
    norm_num

/-- Witness for C2: hypotheses discharged at `L = 2` (mask on, weight of a
later key is zero) and `L = 1` (no mask). -/
theorem causal_mask_applied_iff_multi_token_witness :
    ((1 : ℕ) < 2 ∧ (0 : ℕ) < 1 ∧
      sdpaWeight (fun _ => 1) (decide (1 < 2)) 3 (fun _ => 0) 0 1 = 0) ∧
      maskAllowed (decide (1 < 1)) 0 5 = true :=
  ⟨⟨by decide, by decide,
    causal_mask_applied_iff_multi_token.1 (fun _ => 1) 3 (fun _ => 0) 2 0 1
      (by decide) (by decide)⟩,
    causal_mask_applied_iff_multi_token.2.1 1 0 5 rfl⟩

/-- C4: `repeat_interleave` along the head axis repeats each of the
`num_heads_kv` heads contiguously `repeats` times (expanded head
`g * repeats + j` is source head `g`), and with `num_heads_kv = 1`,
`num_heads = 4` all four query heads see the same expanded key/value
head, so their attention outputs agree whenever their queries agree. -/
theorem gqa_expansion_replicates_heads :
    (∀ (repeats : ℕ) (kv : ℕ → ℕ → ℕ → ℚ) (g j : ℕ), 0 < repeats → j < repeats →
      gqaExpand repeats kv (g * repeats + j) = kv g) ∧
    (∀ (E : ℚ → ℚ) (scale : ℚ) (hd L S : ℕ) (q kR vR : ℕ → ℕ → ℕ → ℚ) (h1 h2 : ℕ),
      h1 < 4 → h2 < 4 → q h1 = q h2 →
      attnHeadsOut E scale 4 1 hd L S q kR vR h1 =
        attnHeadsOut E scale 4 1 hd L S q kR vR h2) := by
  constructor
  · intro repeats kv g j hrep hj
    unfold gqaExpand
    rw [Nat.mul_comm, Nat.mul_add_div hrep, Nat.div_eq_of_lt hj, Nat.add_zero]
  · intro E scale hd L S q kR vR h1 h2 hh1 hh2 hq
    simp only [attnHeadsOut, if_pos (show (1 : ℕ) < 4 by norm_num)]
    unfold gqaExpand
    rw [Nat.div_eq_of_lt (show h1 < 4 / 1 by simpa using hh1),
      Nat.div_eq_of_lt (show h2 < 4 / 1 by simpa using hh2), hq]

/-- Witness for C4: head 3 of a 2-fold expansion reads source head 1, and
query heads 1 and 3 of a 4-head/1-kv-head attention agree on constant
queries. -/
theorem gqa_expansion_replicates_heads_witness :
    ((0 : ℕ) < 2 ∧ (1 : ℕ) < 2 ∧
      gqaExpand 2 (fun (g _ _ : ℕ) => (g : ℚ)) (1 * 2 + 1) =
        (fun (g _ _ : ℕ) => (g : ℚ)) 1) ∧
      attnHeadsOut (fun _ => 1) 1 4 1 1 1 1 (fun _ _ _ => 1) (fun _ _ _ => 2)
          (fun _ _ _ => 3) 1 =
        attnHeadsOut (fun _ => 1) 1 4 1 1 1 1 (fun _ _ _ => 1) (fun _ _ _ => 2)
          (fun _ _ _ => 3) 3 :=
  ⟨⟨by decide, by decide,
    gqa_expansion_replicates_heads.1 2 (fun (g _ _ : ℕ) => (g : ℚ)) 1 1
      (by decide) (by decide)⟩,
    gqa_expansion_replicates_heads.2 (fun _ => 1) 1 1 1 1 (fun _ _ _ => 1)
      (fun _ _ _ => 2) (fun _ _ _ => 3) 1 3 (by decide) (by decide) rfl⟩

/-- An in-capacity, shape-compatible update never returns an error. -/
lemma updateKVCache_ne_error (k v : Tensor4) (ip : InferenceParams) (l : ℕ)
    (cache : KVCache) (hdict : ip.key_value_memory_dict l = some cache)
    (hb : ip.batch_size_offset + k.batch ≤ cache.maxBatch)
    (hs : ip.seqlen_offset + k.seq ≤ cache.maxSeq)
    (hsh : chunkShapesOk cache k v) (e : String) :
    updateKVCache k v ip l ≠ Except.error e := by
  rw [updateKVCache_eq_ok k v ip l cache hdict hb hs hsh]
  simp

/-- C6: with `num_heads` not divisible by `num_heads_kv`, the first
forward pass through `Attention` never succeeds; in the `num_heads_kv <
num_heads` regime (the explicit check of lines 157-159, e.g. 5 vs 2) the
failure is precisely the `ValueError`, provided the cache update itself is
in capacity. -/
theorem attention_fails_on_indivisible_heads (E : ℚ → ℚ) (scale : ℚ)
    (cfg : BackboneConfig) (w : BlockWeights) (layerIdx batch L : ℕ) (x : HiddenT)
    (ip : InferenceParams) (freqs : ℕ → ℕ → ℚ × ℚ) (cache : KVCache)
    (hdict : ip.key_value_memory_dict layerIdx = some cache)
    (hb : ip.batch_size_offset + batch ≤ cache.maxBatch)
    (hs : ip.seqlen_offset + L ≤ cache.maxSeq)
    (hkv : cache.numHeadsKV = cfg.num_heads_kv)
    (hhd : cache.headDim = cfg.d_model / cfg.num_heads)
    (hndvd : ¬ (cfg.num_heads_kv ∣ cfg.num_heads)) :
    isOkE (attentionForward E scale cfg w layerIdx batch L x ip freqs) = false ∧
    (cfg.num_heads_kv < cfg.num_heads →
      attentionForward E scale cfg w layerIdx batch L x ip freqs =
        .error "ValueError: num_heads must be divisible by num_heads_kv for GQA.") := by
  constructor
  · simp only [attentionForward]
    split
    · rfl
    · split_ifs
      all_goals try rfl
      · rename_i h1 h2 h3
        exfalso
        push_neg at h1
        exact hndvd (Nat.dvd_of_mod_eq_zero (h1 h2))
      · rename_i h1 h2 h3
        exfalso
        push_neg at h3
        exact hndvd ⟨1, by omega⟩
  · intro hlt
    simp only [attentionForward]
    split
    · rename_i e heq
      exact absurd heq (updateKVCache_ne_error _ _ ip layerIdx cache hdict
        (by exact hb) (by exact hs)
        (by exact ⟨hkv.symm, hhd.symm, rfl, rfl, rfl, rfl⟩) e)
    · rename_i kvRet ip2 heq
      rw [if_pos ⟨hlt, fun hmod => hndvd (Nat.dvd_of_mod_eq_zero hmod)⟩]

/-- Witness for C6: `num_heads = 5`, `num_heads_kv = 2` fails at the first
attention call with the `ValueError`. -/
theorem attention_fails_on_indivisible_heads_witness :
    (ip52.key_value_memory_dict 0 = some cache52 ∧
      ¬ (cfg52.num_heads_kv ∣ cfg52.num_heads) ∧
      cfg52.num_heads_kv < cfg52.num_heads) ∧
    (isOkE (attentionForward (fun _ => 1) 1 cfg52 zeroBlock 0 1 1 (fun _ _ _ => 0) ip52
        (fun _ _ => (1, 0))) = false ∧
      (cfg52.num_heads_kv < cfg52.num_heads →
        attentionForward (fun _ => 1) 1 cfg52 zeroBlock 0 1 1 (fun _ _ _ => 0) ip52
          (fun _ _ => (1, 0)) =
          .error "ValueError: num_heads must be divisible by num_heads_kv for GQA.")) :=
  ⟨⟨rfl, by decide, by decide⟩,
    attention_fails_on_indivisible_heads (fun _ => 1) 1 cfg52 zeroBlock 0 1 1
      (fun _ _ _ => 0) ip52 (fun _ _ => (1, 0)) cache52 rfl (by decide) (by decide)
      (by decide) (by decide) (by decide)⟩

/-- C5 (amended): `allocate_inference_cache` guarantees a rotary table of
at least 16384 positions on the module's device — independent of
`max_seqlen`, so absolute positions up to `max_seq_len` stay within the
table only when `max_seq_len ≤ 16384` — and returns a mapping holding,
for exactly the layer indices `0 .. n_layer-1`, a fresh buffer of shape
`(batch, max_seqlen, 2, num_heads_kv, head_dim)`. -/
theorem allocate_inference_cache_table_and_map (bb : BackboneModel)
    (batchSize maxSeqlen : ℕ) (initContents : ℕ → ℕ → ℕ → ℕ → ℕ → ℕ → ℚ) :
    ∃ t, (allocateInferenceCache bb batchSize maxSeqlen initContents).1.freqs = some t ∧
      16384 ≤ t.len ∧ t.device = bb.moduleDevice ∧
      (∀ i, i < bb.config.n_layer →
        (allocateInferenceCache bb batchSize maxSeqlen initContents).2 i =
          some ⟨batchSize, maxSeqlen, bb.config.num_heads_kv,
            bb.config.d_model / bb.config.num_heads, initContents i⟩) ∧
      (∀ i, bb.config.n_layer ≤ i →
        (allocateInferenceCache bb batchSize maxSeqlen initContents).2 i = none) ∧
      (maxSeqlen ≤ 16384 → maxSeqlen ≤ t.len) := by
  have hmap : ∀ i, (allocateInferenceCache bb batchSize maxSeqlen initContents).2 i =
      if i < bb.config.n_layer then
        some (⟨batchSize, maxSeqlen, bb.config.num_heads_kv,
          bb.config.d_model / bb.config.num_heads, initContents i⟩ : KVCache)
      else none := fun i => rfl
  have hmap1 : ∀ i, i < bb.config.n_layer →
      (allocateInferenceCache bb batchSize maxSeqlen initContents).2 i =
        some ⟨batchSize, maxSeqlen, bb.config.num_heads_kv,
          bb.config.d_model / bb.config.num_heads, initContents i⟩ :=
    fun i hi => by rw [hmap i, if_pos hi]
  have hmap2 : ∀ i, bb.config.n_layer ≤ i →
      (allocateInferenceCache bb batchSize maxSeqlen initContents).2 i = none :=
    fun i hi => by rw [hmap i, if_neg (by omega)]
  rcases hfr : bb.freqs with _ | t0
  · refine ⟨precomputeFreqsCis bb.ws 16384 bb.moduleDevice, ?_, le_rfl, rfl,
      hmap1, hmap2, fun hms => hms⟩
    unfold allocateInferenceCache
    rw [hfr]
    rfl
  · by_cases hc : t0.device = bb.moduleDevice ∧ 16384 ≤ t0.len
    · refine ⟨t0, ?_, hc.2, hc.1, hmap1, hmap2, fun hms => le_trans hms hc.2⟩
      unfold allocateInferenceCache
      rw [hfr]
      have hneed : (decide (t0.device ≠ bb.moduleDevice) || decide (t0.len < 16384)) =
          false := by
        simp only [Bool.or_eq_false_iff, decide_eq_false_iff_not, not_not, not_lt]
        exact ⟨hc.1, by omega⟩
      simp only [hneed, Bool.false_eq_true, if_false]
      exact hfr
    · refine ⟨precomputeFreqsCis bb.ws 16384 bb.moduleDevice, ?_, le_rfl, rfl,
        hmap1, hmap2, fun hms => hms⟩
      unfold allocateInferenceCache
      rw [hfr]
      have hneed : (decide (t0.device ≠ bb.moduleDevice) || decide (t0.len < 16384)) =
          true := by
        simp only [Bool.or_eq_true, decide_eq_true_eq]
        rcases Classical.em (t0.device = bb.moduleDevice) with hd | hd
        · refine Or.inr ?_
          by_contra hlen
          exact hc ⟨hd, by omega⟩
        · exact Or.inl hd
      simp only [hneed]
      rfl

/-- C5 counterexample: allocating with `max_seqlen = 16385` succeeds and
produces per-layer buffers of sequence capacity 16385, but the rotary
table holds only 16384 positions, and a forward call addressing the
in-capacity absolute position 16384 fails on the table lookup — refuting
the claim that positions up to `max_seq_len` never index past the table. -/
theorem allocate_table_not_covering_max_seqlen :
    (allocateInferenceCache testBackbone 1 16385 (fun _ _ _ _ _ _ => 0)).1.freqs.map
        (fun t => t.len) = some 16384 ∧
      Option.map (fun c => c.maxSeq)
        ((allocateInferenceCache testBackbone 1 16385 (fun _ _ _ _ _ _ => 0)).2 0) =
        some 16385 ∧
      16384 < 16385 ∧
      backboneForward (fun _ => 1) (fun _ => 1) 1
        (allocateInferenceCache testBackbone 1 16385 (fun _ _ _ _ _ _ => 0)).1 1 1
        (fun _ _ _ => 0)
        ⟨16384, 0, (allocateInferenceCache testBackbone 1 16385 (fun _ _ _ _ _ _ => 0)).2⟩ =
      .error "IndexError: position index out of range of freqs_cis" := by
  refine ⟨rfl, rfl, by norm_num, ?_⟩
  rfl

/-! ## Frame property of a forward call -/

lemma cacheFrame_refl (b0 bN s0 sN : ℕ) (ip : InferenceParams) :
    cacheFrame b0 bN s0 sN ip ip := by
  intro l
  cases hl : ip.key_value_memory_dict l with
  | none => trivial
  | some c => exact ⟨rfl, rfl, rfl, rfl, fun b s slot h d _ => rfl⟩

lemma cacheFrame_comp (b0 bN s0 sN : ℕ) (ip1 ip2 ip3 : InferenceParams)
    (h12 : cacheFrame b0 bN s0 sN ip1 ip2) (h23 : cacheFrame b0 bN s0 sN ip2 ip3) :
    cacheFrame b0 bN s0 sN ip1 ip3 := by
  intro l
  have g12 := h12 l
  have g23 := h23 l
  cases hl1 : ip1.key_value_memory_dict l with
  | none =>
    cases hl2 : ip2.key_value_memory_dict l with
    | none =>
      cases hl3 : ip3.key_value_memory_dict l with
      | none => trivial
      | some c3 =>
        simp only [hl2, hl3] at g23
    | some c2 =>
      simp only [hl1, hl2] at g12
  | some c1 =>
    cases hl2 : ip2.key_value_memory_dict l with
    | none =>
      simp only [hl1, hl2] at g12
    | some c2 =>
      cases hl3 : ip3.key_value_memory_dict l with
      | none =>
        simp only [hl2, hl3] at g23
      | some c3 =>
        simp only [hl1, hl2] at g12
        simp only [hl2, hl3] at g23
        obtain ⟨e1, e2, e3, e4, hdata12⟩ := g12
        obtain ⟨f1, f2, f3, f4, hdata23⟩ := g23
        exact ⟨f1.trans e1, f2.trans e2, f3.trans e3, f4.trans e4,
          fun b s slot h d hout => (hdata23 b s slot h d hout).trans
            (hdata12 b s slot h d hout)⟩

/-- A successful cache update leaves the offsets untouched and changes
cache contents only inside the addressed rectangle of its own layer. -/
lemma updateKVCache_frame (k v : Tensor4) (ip : InferenceParams) (l : ℕ)
    (r : TensorKV) (ip2 : InferenceParams)
    (h : updateKVCache k v ip l = .ok (r, ip2)) :
    ip2.seqlen_offset = ip.seqlen_offset ∧
      ip2.batch_size_offset = ip.batch_size_offset ∧
      cacheFrame ip.batch_size_offset (ip.batch_size_offset + k.batch)
        ip.seqlen_offset (ip.seqlen_offset + k.seq) ip ip2 := by
  obtain ⟨cache, hdict, hb, hs, hsh, hr, hip⟩ := updateKVCache_ok_inv k v ip l r ip2 h
  subst hip
  refine ⟨rfl, rfl, ?_⟩
  intro l2
  by_cases hl2 : l2 = l
  · subst hl2
    have hnew : (dictSet ip l2
        (cacheWrite cache ip.batch_size_offset ip.seqlen_offset k v)).key_value_memory_dict
          l2 = some (cacheWrite cache ip.batch_size_offset ip.seqlen_offset k v) := by
      simp [dictSet]
    simp only [hdict, hnew]
    exact ⟨rfl, rfl, rfl, rfl,
      fun b s slot h d hout => cacheWrite_data_outside cache k v _ _ b s slot h d hout⟩
  · have hnew : (dictSet ip l
        (cacheWrite cache ip.batch_size_offset ip.seqlen_offset k v)).key_value_memory_dict
          l2 = ip.key_value_memory_dict l2 := by
      simp [dictSet, hl2]
    simp only [hnew]
    cases hll : ip.key_value_memory_dict l2 with
    | none => trivial
    | some c => exact ⟨rfl, rfl, rfl, rfl, fun b s slot h d _ => rfl⟩

/-- `Attention.forward` mutates only its own layer's cache rectangle. -/
lemma attentionForward_frame (E : ℚ → ℚ) (scale : ℚ) (cfg : BackboneConfig)
    (w : BlockWeights) (layerIdx batch L : ℕ) (x : HiddenT) (ip : InferenceParams)
    (freqs : ℕ → ℕ → ℚ × ℚ) (y : HiddenT) (ip2 : InferenceParams)
    (h : attentionForward E scale cfg w layerIdx batch L x ip freqs = .ok (y, ip2)) :
    ip2.seqlen_offset = ip.seqlen_offset ∧
      ip2.batch_size_offset = ip.batch_size_offset ∧
      cacheFrame ip.batch_size_offset (ip.batch_size_offset + batch)
        ip.seqlen_offset (ip.seqlen_offset + L) ip ip2 := by
  simp only [attentionForward] at h
  split at h
  · exact absurd h (by simp)
  · rename_i kvRet ipu heq
    split at h
    · exact absurd h (by simp)
    · split at h
      · rw [if_neg (fun hne => hne rfl)] at h
        injection h with hpair
        have hip : ipu = ip2 := congrArg Prod.snd hpair
        subst hip
        exact updateKVCache_frame _ _ ip layerIdx kvRet ipu heq
      · split at h
        · exact absurd h (by simp)
        · injection h with hpair
          have hip : ipu = ip2 := congrArg Prod.snd hpair
          subst hip
          exact updateKVCache_frame _ _ ip layerIdx kvRet ipu heq

/-- `TransformerBlock.forward` mutates only its own layer's cache
rectangle. -/
lemma blockForward_frame (E rsqrtF : ℚ → ℚ) (scale : ℚ) (cfg : BackboneConfig)
    (w : BlockWeights) (layerIdx batch L : ℕ) (x : HiddenT) (ip : InferenceParams)
    (freqs : ℕ → ℕ → ℚ × ℚ) (y : HiddenT) (ip2 : InferenceParams)
    (h : blockForward E rsqrtF scale cfg w layerIdx batch L x ip freqs = .ok (y, ip2)) :
    ip2.seqlen_offset = ip.seqlen_offset ∧
      ip2.batch_size_offset = ip.batch_size_offset ∧
      cacheFrame ip.batch_size_offset (ip.batch_size_offset + batch)
        ip.seqlen_offset (ip.seqlen_offset + L) ip ip2 := by
  simp only [blockForward] at h
  split at h
  · exact absurd h (by simp)
  · rename_i attnOut ipa heq
    injection h with hpair
    have hip : ipa = ip2 := congrArg Prod.snd hpair
    subst hip
    exact attentionForward_frame E scale cfg w layerIdx batch L _ ip freqs _ ipa heq

/-- The layer loop preserves the offsets and the frame. -/
lemma runLayers_frame (E rsqrtF : ℚ → ℚ) (scale : ℚ) (cfg : BackboneConfig)
    (blocks : ℕ → BlockWeights) (batch L : ℕ) (freqs : ℕ → ℕ → ℚ × ℚ) :
    ∀ (count idx : ℕ) (x : HiddenT) (ip : InferenceParams) (y : HiddenT)
      (ip2 : InferenceParams),
      runLayers E rsqrtF scale cfg blocks batch L freqs idx count x ip = .ok (y, ip2) →
      ip2.seqlen_offset = ip.seqlen_offset ∧
        ip2.batch_size_offset = ip.batch_size_offset ∧
        cacheFrame ip.batch_size_offset (ip.batch_size_offset + batch)
          ip.seqlen_offset (ip.seqlen_offset + L) ip ip2 := by
  intro count
  induction count with
  | zero =>
    intro idx x ip y ip2 h
    have h2 : (Except.ok (x, ip) : Except String (HiddenT × InferenceParams)) =
        .ok (y, ip2) := h
    injection h2 with hpair
    have hip : ip = ip2 := congrArg Prod.snd hpair
    subst hip
    exact ⟨rfl, rfl, cacheFrame_refl _ _ _ _ ip⟩
  | succ n ih =>
    intro idx x ip y ip2 h
    simp only [runLayers] at h
    split at h
    · exact absurd h (by simp)
    · rename_i x2 ipm heq
      have hstep := blockForward_frame E rsqrtF scale cfg (blocks idx) idx batch L x ip
        freqs x2 ipm heq
      have hrec := ih (idx + 1) x2 ipm y ip2 h
      refine ⟨hrec.1.trans hstep.1, hrec.2.1.trans hstep.2.1, ?_⟩
      have hframe2 : cacheFrame ip.batch_size_offset (ip.batch_size_offset + batch)
          ip.seqlen_offset (ip.seqlen_offset + L) ipm ip2 := by
        rw [← hstep.2.1, ← hstep.1]
        exact hrec.2.2
      exact cacheFrame_comp _ _ _ _ ip ipm ip2 hstep.2.2 hframe2

/-- C9: a successful backbone forward call leaves both offsets of the
decode state unchanged and changes cache contents only inside the
addressed batch/sequence rectangle of each layer's own buffer (the cache
map's domain and every buffer's shape are preserved as well); in this
pure-state embedding the input hidden states are untouched by
construction. -/
theorem backbone_forward_frame (E rsqrtF : ℚ → ℚ) (scale : ℚ) (bb : BackboneModel)
    (batch L : ℕ) (x : HiddenT) (ip : InferenceParams) (y : HiddenT)
    (ip2 : InferenceParams)
    (h : backboneForward E rsqrtF scale bb batch L x ip = .ok (y, ip2)) :
    ip2.seqlen_offset = ip.seqlen_offset ∧
      ip2.batch_size_offset = ip.batch_size_offset ∧
      cacheFrame ip.batch_size_offset (ip.batch_size_offset + batch)
        ip.seqlen_offset (ip.seqlen_offset + L) ip ip2 := by
  simp only [backboneForward] at h
  cases hfr : bb.freqs with
  | none =>
    rw [hfr] at h
    exact absurd h (by simp)
  | some t =>
    rw [hfr] at h
    simp only [] at h
    split_ifs at h with hlen
    · split at h
      · exact absurd h (by simp)
      · rename_i h2 ipl heq
        injection h with hpair
        have hip : ipl = ip2 := congrArg Prod.snd hpair
        subst hip
        exact runLayers_frame E rsqrtF scale bb.config bb.blocks batch L _
          bb.config.n_layer 0 x ip h2 ipl heq

/-- Witness for C9: a concrete successful forward call (one layer, batch
1, one decode position) whose hypothesis is discharged by running the
model, with the frame conclusions instantiated. -/
theorem backbone_forward_frame_witness :
    ∃ y ip2, backboneForward (fun _ => 1) (fun _ => 1) 1 testAllocated.1 1 1
        (fun _ _ _ => 0) ⟨0, 0, testAllocated.2⟩ = .ok (y, ip2) ∧
      (ip2.seqlen_offset = (⟨0, 0, testAllocated.2⟩ : InferenceParams).seqlen_offset ∧
        ip2.batch_size_offset =
          (⟨0, 0, testAllocated.2⟩ : InferenceParams).batch_size_offset ∧
        cacheFrame 0 1 0 1 ⟨0, 0, testAllocated.2⟩ ip2) := by
  have hok : isOkE (backboneForward (fun _ => 1) (fun _ => 1) 1 testAllocated.1 1 1
      (fun _ _ _ => 0) ⟨0, 0, testAllocated.2⟩) = true := rfl
  cases hres : backboneForward (fun _ => 1) (fun _ => 1) 1 testAllocated.1 1 1
      (fun _ _ _ => 0) ⟨0, 0, testAllocated.2⟩ with
  | error e => rw [hres] at hok; exact absurd hok (by simp [isOkE])
  | ok p =>
    obtain ⟨pv, ps⟩ := p
    exact ⟨pv, ps, rfl, backbone_forward_frame (fun _ => 1) (fun _ => 1) 1
      testAllocated.1 1 1 (fun _ _ _ => 0) ⟨0, 0, testAllocated.2⟩ pv ps hres⟩
